import Mathlib

/-!
Verification of the clod sandbox-plan builder and layered configuration
resolver (repository mbarlow12/claude-jail, directory clod-py).

The Python modules clod.bwrap, clod.config.merge, clod.config.loader,
clod.config.sources, clod.config.settings, clod.sandbox and the jail
command of clod.cli are shallowly embedded below.  Filesystem and
environment access is abstracted by a Host record; POSIX path
manipulation (pathlib) is modelled by explicit string functions.
-/

namespace Clod

/-! ### String helpers

Structurally recursive equivalents of str.split(sep), str.startswith,
str.upper and str.lower for single-character separators and ASCII case,
so that concrete instances evaluate by kernel reduction. -/

/-- Split the remaining characters at every separator occurrence. -/
def splitChars (sep : Char) : List Char → List Char → List String
  | [], acc => [String.mk acc.reverse]
  | c :: rest, acc =>
    if c = sep then String.mk acc.reverse :: splitChars sep rest []
    else splitChars sep rest (c :: acc)

/-- Python str.split with a one-character separator. -/
def strSplit (s : String) (sep : Char) : List String :=
  splitChars sep s.data []

/-- Whether the string begins with the given character. -/
def startsWithChar (s : String) (c0 : Char) : Bool :=
  match s.data with
  | [] => false
  | c :: _ => c = c0

/-- ASCII upper-casing, as Python str.upper on identifier-like strings. -/
def strUpper (s : String) : String :=
  String.mk (s.data.map Char.toUpper)

/-- ASCII lower-casing, as Python str.lower on identifier-like strings. -/
def strLower (s : String) : String :=
  String.mk (s.data.map Char.toLower)

/-! ### POSIX path helpers, modelling pathlib.PurePosixPath -/

/-- Components of a path, as Python pathlib parts: the leading slash is a
separate first component for absolute paths; empty and single-dot
components are dropped. -/
def pathParts (s : String) : List String :=
  let comps := (strSplit s '/').filter (fun c => c != "" && c != ".")
  if startsWithChar s '/' then "/" :: comps else comps

/-- Rebuild the textual form of a path from its components, as str(Path). -/
def joinParts : List String → String
  | [] => "."
  | "/" :: rest => "/" ++ String.intercalate "/" rest
  | ps => String.intercalate "/" ps

/-- Normalised string form of a path, modelling str(Path(s)). -/
def pathStr (s : String) : String := joinParts (pathParts s)

/-- Parent directory of a path, modelling Path(s).parent. -/
def pathParent (s : String) : String :=
  match pathParts s with
  | ["/"] => "/"
  | ps => joinParts ps.dropLast

/-! ### Host abstraction: filesystem checks and environment -/

/-- Read-only view of the host filesystem and process environment that the
builder consults (pathlib existence checks, os.environ, Path.home and
symlink resolution). -/
structure Host where
  pathExists : String → Bool
  isDir : String → Bool
  isFile : String → Bool
  isSymlink : String → Bool
  resolve : String → String
  getenv : String → Option String
  home : String

/-! ### BwrapBuilder (clod.bwrap) -/

/-- State of clod.bwrap.BwrapBuilder: four categorized argument lists and
the deduplication registry, a set of string keys. -/
structure BwrapBuilder where
  ns_args : List String
  pre_args : List String
  bind_args : List String
  env_args : List String
  seen : List String
deriving Repr, DecidableEq

/-- Fresh builder, as BwrapBuilder.__init__. -/
def BwrapBuilder.empty : BwrapBuilder :=
  { ns_args := [], pre_args := [], bind_args := [], env_args := [], seen := [] }

/-- Loop body of BwrapBuilder._ensure_parent: walk the path components
(root already skipped), emitting a dir operation for each unseen prefix. -/
def ensureParentLoop : List String → String → BwrapBuilder → BwrapBuilder
  | [], _, b => b
  | p :: rest, acc, b =>
    let acc1 := acc ++ "/" ++ p
    let key := "dir:" ++ acc1
    if key ∈ b.seen then ensureParentLoop rest acc1 b
    else ensureParentLoop rest acc1
      { b with pre_args := b.pre_args ++ ["--dir", acc1], seen := b.seen.insert key }

/-- Model of BwrapBuilder._ensure_parent. -/
def BwrapBuilder.ensure_parent (b : BwrapBuilder) (target : String) : BwrapBuilder :=
  if target = "" then b
  else ensureParentLoop ((pathParts target).drop 1) "" b

/-- The destination a bind call uses: the given dst when present and
non-empty (Python truthiness), otherwise the source. -/
def bindDst (src : String) : Option String → String
  | none => src
  | some d => if d = "" then src else d

/-- Body shared by the miss branches of ro_bind and bind: resolve the real
source, ensure the destination parents exist, append the bind operation
under the given flag and mark the destination bound. -/
def appendBind (flag : String) (b : BwrapBuilder) (h : Host) (src dstStr : String) :
    BwrapBuilder :=
  let b1 := b.ensure_parent (pathParent dstStr)
  { b1 with bind_args := b1.bind_args ++ [flag, h.resolve src, dstStr],
            seen := b1.seen.insert ("bind:" ++ dstStr) }

/-- Model of BwrapBuilder.ro_bind: skip when the source is absent, no-op
success when the destination is already bound, otherwise ensure parents
and append a read-only bind. -/
def BwrapBuilder.ro_bind (b : BwrapBuilder) (h : Host) (src : String)
    (dst : Option String) : BwrapBuilder × Bool :=
  if h.pathExists src then
    if ("bind:" ++ pathStr (bindDst src dst)) ∈ b.seen then (b, true)
    else (appendBind "--ro-bind" b h src (pathStr (bindDst src dst)), true)
  else (b, false)

/-- Model of BwrapBuilder.bind (read-write variant of ro_bind). -/
def BwrapBuilder.bind (b : BwrapBuilder) (h : Host) (src : String)
    (dst : Option String) : BwrapBuilder × Bool :=
  if h.pathExists src then
    if ("bind:" ++ pathStr (bindDst src dst)) ∈ b.seen then (b, true)
    else (appendBind "--bind" b h src (pathStr (bindDst src dst)), true)
  else (b, false)

/-- Model of BwrapBuilder.tmpfs. -/
def BwrapBuilder.tmpfs (b : BwrapBuilder) (path : String) : BwrapBuilder :=
  let b1 := b.ensure_parent path
  { b1 with bind_args := b1.bind_args ++ ["--tmpfs", path] }

/-- Model of BwrapBuilder.symlink: record the symlink operation and mark
the link path as an already-ensured directory. -/
def BwrapBuilder.symlink (b : BwrapBuilder) (target link : String) : BwrapBuilder :=
  { b with seen := b.seen.insert ("dir:" ++ link),
           bind_args := b.bind_args ++ ["--symlink", target, link] }

/-- Model of BwrapBuilder.dev. -/
def BwrapBuilder.dev (b : BwrapBuilder) (path : String) : BwrapBuilder :=
  { b with bind_args := b.bind_args ++ ["--dev", path] }

/-- Model of BwrapBuilder.proc. -/
def BwrapBuilder.proc (b : BwrapBuilder) (path : String) : BwrapBuilder :=
  { b with bind_args := b.bind_args ++ ["--proc", path] }

/-- Model of BwrapBuilder.setenv. -/
def BwrapBuilder.setenv (b : BwrapBuilder) (name value : String) : BwrapBuilder :=
  { b with env_args := b.env_args ++ ["--setenv", name, value] }

/-- Model of BwrapBuilder.chdir. -/
def BwrapBuilder.chdir (b : BwrapBuilder) (path : String) : BwrapBuilder :=
  { b with bind_args := b.bind_args ++ ["--chdir", path] }

/-- Flag emitted by BwrapBuilder.unshare for one namespace name, when
recognized. -/
def unshareFlag : String → Option String
  | "user" => some "--unshare-user"
  | "pid" => some "--unshare-pid"
  | "net" => some "--unshare-net"
  | "ipc" => some "--unshare-ipc"
  | "uts" => some "--unshare-uts"
  | "cgroup" => some "--unshare-cgroup"
  | _ => none

/-- Model of BwrapBuilder.unshare over a list of namespace names. -/
def BwrapBuilder.unshare (b : BwrapBuilder) (namespaces : List String) : BwrapBuilder :=
  namespaces.foldl (fun b1 ns =>
    match unshareFlag ns with
    | some flag => { b1 with ns_args := b1.ns_args ++ [flag] }
    | none => b1) b

/-- Model of BwrapBuilder.share (only net is recognized). -/
def BwrapBuilder.share (b : BwrapBuilder) (namespaces : List String) : BwrapBuilder :=
  namespaces.foldl (fun b1 ns =>
    if ns = "net" then { b1 with ns_args := b1.ns_args ++ ["--share-net"] } else b1) b

/-- Handling of one base directory in system_base: a symlink into /usr when
the host path is a symlink, a read-only bind when it is a directory,
otherwise nothing. -/
def sysEntry (b : BwrapBuilder) (h : Host) (path target : String) : BwrapBuilder :=
  if h.isSymlink path then b.symlink target path
  else if h.isDir path then (b.ro_bind h path none).1 else b

/-- Model of BwrapBuilder.system_base: /usr read-only, and each of /bin,
/lib, /lib64, /sbin either as a symlink into /usr or as a read-only bind. -/
def BwrapBuilder.system_base (b : BwrapBuilder) (h : Host) : BwrapBuilder :=
  let b := (b.ro_bind h "/usr" none).1
  let b := sysEntry b h "/bin" "usr/bin"
  let b := sysEntry b h "/lib" "usr/lib"
  let b := sysEntry b h "/lib64" "usr/lib64"
  sysEntry b h "/sbin" "usr/sbin"

/-- Model of BwrapBuilder.system_dns. -/
def BwrapBuilder.system_dns (b : BwrapBuilder) (h : Host) : BwrapBuilder :=
  ["/etc/resolv.conf", "/etc/hosts", "/etc/nsswitch.conf", "/etc/host.conf",
   "/etc/gai.conf"].foldl
    (fun b1 f => if h.isFile f then (b1.ro_bind h f none).1 else b1) b

/-- Model of BwrapBuilder.system_ssl. -/
def BwrapBuilder.system_ssl (b : BwrapBuilder) (h : Host) : BwrapBuilder :=
  ["/etc/ssl", "/etc/ca-certificates", "/etc/pki", "/etc/ca-certificates.conf"].foldl
    (fun b1 p =>
      if h.isDir p then (b1.ro_bind h p none).1
      else if h.isFile p then (b1.ro_bind h p none).1 else b1) b

/-- Model of BwrapBuilder.system_users. -/
def BwrapBuilder.system_users (b : BwrapBuilder) (h : Host) : BwrapBuilder :=
  ["/etc/passwd", "/etc/group", "/etc/localtime"].foldl
    (fun b1 f => if h.isFile f then (b1.ro_bind h f none).1 else b1) b

/-- Model of BwrapBuilder.bind_path_dirs: read-only bind of every existing
directory named in the host PATH variable. -/
def BwrapBuilder.bind_path_dirs (b : BwrapBuilder) (h : Host) : BwrapBuilder :=
  let pathEnv := (h.getenv "PATH").getD ""
  (strSplit pathEnv ':').foldl
    (fun b1 d => if d != "" && h.isDir d then (b1.ro_bind h d none).1 else b1) b

/-- Model of BwrapBuilder.build: fixed preamble, then the four category
lists in order. -/
def BwrapBuilder.build (b : BwrapBuilder) : List String :=
  ["bwrap", "--die-with-parent", "--new-session"]
    ++ b.ns_args ++ b.pre_args ++ b.bind_args ++ b.env_args

/-! ### TOML values and dictionaries (clod.config.merge) -/

/-- Parsed TOML value, as the Python values tomllib produces: strings,
integers, booleans, arrays and tables.  A table is an insertion-ordered
association list, modelling a Python dict. -/
inductive TomlVal where
  | vstr : String → TomlVal
  | vint : Int → TomlVal
  | vbool : Bool → TomlVal
  | vlist : List TomlVal → TomlVal
  | vtable : List (String × TomlVal) → TomlVal
deriving Repr

/-- A Python dict with string keys, as an insertion-ordered association
list. -/
abbrev Dict := List (String × TomlVal)

/-- Dict lookup (first matching key), modelling d[k] / k in d. -/
def dictGet : Dict → String → Option TomlVal
  | [], _ => none
  | (k, v) :: rest, q => if k = q then some v else dictGet rest q

/-- Dict assignment: replace the value at an existing key in place,
otherwise append, as Python dict item assignment. -/
def dictSet : Dict → String → TomlVal → Dict
  | [], q, v => [(q, v)]
  | (k, w) :: rest, q, v =>
    if k = q then (k, v) :: rest else (k, w) :: dictSet rest q v

/-- Model of clod.config.merge.deep_merge: copy the base, then fold the
override entries in; a key whose value is a table in both sides is merged
recursively, any other conflicting key takes the override value wholesale. -/
def deep_merge : Dict → Dict → Dict
  | result, [] => result
  | result, (k, TomlVal.vtable ot) :: rest =>
    (match dictGet result k with
     | some (TomlVal.vtable bt) =>
       deep_merge (dictSet result k (TomlVal.vtable (deep_merge bt ot))) rest
     | _ => deep_merge (dictSet result k (TomlVal.vtable ot)) rest)
  | result, (k, ov) :: rest => deep_merge (dictSet result k ov) rest
termination_by _ o => sizeOf o

/-- Modelled from the spec: pydantic's deep_update helper, the merge law of
section 4.3 (recursive table merge, later value wins otherwise), used by
ClodTomlSettingsSource and not part of this repository. -/
def deep_update : Dict → Dict → Dict
  | updated, [] => updated
  | updated, (k, v) :: rest =>
    (match dictGet updated k, v with
     | some (TomlVal.vtable bt), TomlVal.vtable ot =>
       deep_update (dictSet updated k (TomlVal.vtable (deep_update bt ot))) rest
     | _, _ => deep_update (dictSet updated k v) rest)
termination_by _ b => sizeOf b

/-! ### Configuration discovery and loading (clod.config.loader / sources) -/

/-- Fatal configuration errors of clod.config.exceptions. -/
inductive CfgErr where
  | duplicateConfig : List String → CfgErr
  | fileNotFound : String → CfgErr
  | validation : String → CfgErr
deriving Repr, DecidableEq

/-- The configuration-relevant filesystem state: which paths are regular
files and their parsed TOML contents. -/
structure ConfigFS where
  files : List (String × Dict)

/-- Whether a path is a regular file in the config filesystem. -/
def ConfigFS.isFile (fs : ConfigFS) (p : String) : Bool :=
  (fs.files.lookup p).isSome

/-- Parsed content of a config file (empty when absent; parse errors are
out of scope of the claims considered here). -/
def ConfigFS.content (fs : ConfigFS) (p : String) : Dict :=
  (fs.files.lookup p).getD []

/-- Model of clod.config.loader.get_config_home. -/
def get_config_home (h : Host) : String :=
  match h.getenv "CLOD_CONFIG_HOME" with
  | some c => if c = "" then
      (match h.getenv "XDG_CONFIG_HOME" with
       | some x => if x = "" then h.home ++ "/.config/clod" else x ++ "/clod"
       | none => h.home ++ "/.config/clod")
    else c
  | none =>
    match h.getenv "XDG_CONFIG_HOME" with
    | some x => if x = "" then h.home ++ "/.config/clod" else x ++ "/clod"
    | none => h.home ++ "/.config/clod"

/-- Model of clod.config.loader.discover_user_config. -/
def discover_user_config (h : Host) (fs : ConfigFS) : Option String :=
  let f := get_config_home h ++ "/config.toml"
  if fs.isFile f then some f else none

/-- Model of clod.config.loader.discover_project_config: per tier the two
layouts are mutually exclusive; both present is a duplicate-config error
naming both paths. -/
def discover_project_config (fs : ConfigFS) (projectDir : String) :
    Except CfgErr (Option String × Option String) := do
  let clodToml := projectDir ++ "/clod.toml"
  let dotClod := projectDir ++ "/.clod/config.toml"
  let base ←
    if fs.isFile clodToml && fs.isFile dotClod then
      Except.error (CfgErr.duplicateConfig [clodToml, dotClod])
    else if fs.isFile clodToml then pure (some clodToml)
    else if fs.isFile dotClod then pure (some dotClod)
    else pure none
  let clodLocal := projectDir ++ "/clod.local.toml"
  let dotLocal := projectDir ++ "/.clod/config.local.toml"
  let local_ ←
    if fs.isFile clodLocal && fs.isFile dotLocal then
      Except.error (CfgErr.duplicateConfig [clodLocal, dotLocal])
    else if fs.isFile clodLocal then pure (some clodLocal)
    else if fs.isFile dotLocal then pure (some dotLocal)
    else pure none
  pure (base, local_)

/-- Model of clod.config.loader.load_toml_file: file-not-found when the
path is not a regular file, otherwise the parsed content. -/
def load_toml_file (fs : ConfigFS) (path : String) : Except CfgErr Dict :=
  if fs.isFile path then Except.ok (fs.content path)
  else Except.error (CfgErr.fileNotFound path)

/-- Model of clod.config.loader.load_all_configs: explicit-file mode loads
only that file; otherwise the discovered user, project-base and
project-local files are deep-merged in ascending precedence. -/
def load_all_configs (h : Host) (fs : ConfigFS) (projectDir : String)
    (explicitConfig : Option String) : Except CfgErr (Dict × List String) := do
  match explicitConfig with
  | some f =>
    let cfg ← load_toml_file fs f
    pure (cfg, [f])
  | none =>
    let mut1 : Dict × List String ←
      match discover_user_config h fs with
      | some u => do
        let cfg ← load_toml_file fs u
        pure (deep_merge [] cfg, [u])
      | none => pure ([], [])
    let (base, local_) ← discover_project_config fs projectDir
    let mut2 : Dict × List String ←
      match base with
      | some bp => do
        let cfg ← load_toml_file fs bp
        pure (deep_merge mut1.1 cfg, mut1.2 ++ [bp])
      | none => pure mut1
    let mut3 : Dict × List String ←
      match local_ with
      | some lp => do
        let cfg ← load_toml_file fs lp
        pure (deep_merge mut2.1 cfg, mut2.2 ++ [lp])
      | none => pure mut2
    pure mut3

/-- Model of ClodTomlSettingsSource._load_toml: empty dict when the file is
absent and not required, file-not-found when required. -/
def source_load_toml (fs : ConfigFS) (path : String) (required : Bool) :
    Except CfgErr Dict :=
  if fs.isFile path then Except.ok (fs.content path)
  else if required then Except.error (CfgErr.fileNotFound path)
  else Except.ok []

/-- Model of ClodTomlSettingsSource._load_configs: the pydantic-settings
TOML source, merging with deep_update instead of deep_merge. -/
def source_load_configs (h : Host) (fs : ConfigFS) (projectDir : String)
    (explicitConfig : Option String) : Except CfgErr Dict := do
  match explicitConfig with
  | some f => source_load_toml fs f true
  | none =>
    let m1 : Dict ←
      match discover_user_config h fs with
      | some u => do
        let cfg ← source_load_toml fs u false
        pure (deep_update [] cfg)
      | none => pure []
    let (base, local_) ← discover_project_config fs projectDir
    let m2 : Dict ←
      match base with
      | some bp => do
        let cfg ← source_load_toml fs bp false
        pure (deep_update m1 cfg)
      | none => pure m1
    let m3 : Dict ←
      match local_ with
      | some lp => do
        let cfg ← source_load_toml fs lp false
        pure (deep_update m2 cfg)
      | none => pure m2
    pure m3

/-! ### Settings resolution (clod.config.settings) -/

/-- Resolved settings record, the typed fields of ClodSettings with their
declared defaults. -/
structure ClodSettings where
  sandbox_name : String
  enable_network : Bool
  term : String
  lang : String
  shell : String
deriving Repr, DecidableEq

/-- Raw value a settings source supplies for a field before validation:
either a Python value (constructor kwargs and TOML source) or an
environment string. -/
inductive RawV where
  | rval : TomlVal → RawV
  | renv : String → RawV

/-- Modelled from the spec: the value the pydantic source chain picks for
one field — the first of constructor kwargs, CLOD_-prefixed environment
variable and merged TOML dict that supplies it (section 4.3 step 6). -/
def fieldRaw (init : Dict) (h : Host) (toml : Dict) (key : String) : Option RawV :=
  match dictGet init key with
  | some v => some (RawV.rval v)
  | none =>
    match h.getenv ("CLOD_" ++ strUpper key) with
    | some s => some (RawV.renv s)
    | none => (dictGet toml key).map RawV.rval

/-- Modelled from the spec: pydantic's lax parsing of a boolean field from
an environment string (a malformed value is a hard validation error). -/
def parseEnvBool (s : String) : Option Bool :=
  match strLower s with
  | "true" => some true
  | "t" => some true
  | "yes" => some true
  | "y" => some true
  | "on" => some true
  | "1" => some true
  | "false" => some false
  | "f" => some false
  | "no" => some false
  | "n" => some false
  | "off" => some false
  | "0" => some false
  | _ => none

/-- String-typed field resolution: first supplying source wins, a
non-string Python value is a validation error, absence gives the default. -/
def resolveStrField (init : Dict) (h : Host) (toml : Dict) (key dflt : String) :
    Except CfgErr String :=
  match fieldRaw init h toml key with
  | none => Except.ok dflt
  | some (RawV.renv s) => Except.ok s
  | some (RawV.rval (TomlVal.vstr s)) => Except.ok s
  | some (RawV.rval _) => Except.error (CfgErr.validation key)

/-- Boolean-typed field resolution: first supplying source wins, an
environment string goes through lax bool parsing, a non-boolean Python
value is a validation error, absence gives the default. -/
def resolveBoolField (init : Dict) (h : Host) (toml : Dict) (key : String)
    (dflt : Bool) : Except CfgErr Bool :=
  match fieldRaw init h toml key with
  | none => Except.ok dflt
  | some (RawV.renv s) =>
    match parseEnvBool s with
    | some b => Except.ok b
    | none => Except.error (CfgErr.validation key)
  | some (RawV.rval (TomlVal.vbool b)) => Except.ok b
  | some (RawV.rval _) => Except.error (CfgErr.validation key)

/-- Modelled from the spec: pydantic BaseSettings construction under
ClodSettings.settings_customise_sources — constructor kwargs, then
environment, then merged TOML, then field defaults, each field validated
against its declared type. -/
def mkClodSettings (init : Dict) (h : Host) (toml : Dict) :
    Except CfgErr ClodSettings := do
  let sn ← resolveStrField init h toml "sandbox_name" ".claude-sandbox"
  let en ← resolveBoolField init h toml "enable_network" true
  let tm ← resolveStrField init h toml "term" "xterm-256color"
  let lg ← resolveStrField init h toml "lang" "en_US.UTF-8"
  let sh ← resolveStrField init h toml "shell" "/bin/bash"
  pure { sandbox_name := sn, enable_network := en, term := tm, lang := lg,
         shell := sh }

/-- Settings construction as the CLI performs it: set_config_context with
the project directory and optional explicit file, then ClodSettings(**init)
whose TOML source is ClodTomlSettingsSource._load_configs. -/
def clodSettingsNew (h : Host) (fs : ConfigFS) (projectDir : String)
    (explicitConfig : Option String) (init : Dict) : Except CfgErr ClodSettings := do
  let toml ← source_load_configs h fs projectDir explicitConfig
  mkClodSettings init h toml

/-- Model of clod.config.settings.get_sandbox_home. -/
def get_sandbox_home (projectDir : String) (settings : ClodSettings) : String :=
  projectDir ++ "/" ++ settings.sandbox_name

/-! ### Dev profile (clod.sandbox) and the jail command (clod.cli) -/

/-- Model of clod.sandbox.bind_toolchain_dirs: read-only binds for the
well-known toolchain directories under the host home that exist. -/
def bind_toolchain_dirs (b : BwrapBuilder) (h : Host) : BwrapBuilder :=
  ["/.local/share/mise", "/.config/mise", "/.cargo", "/.rustup",
   "/.cache/uv", "/.local/share/uv", "/.pyenv", "/.nvm", "/.npm",
   "/.volta", "/.bun", "/go", "/.local/bin"].foldl
    (fun b1 p =>
      if h.isDir (h.home ++ p) then (b1.ro_bind h (h.home ++ p) none).1 else b1) b

/-- Model of clod.sandbox.setup_environment. -/
def setup_environment (b : BwrapBuilder) (h : Host) (sandboxHome : String)
    (settings : ClodSettings) : BwrapBuilder :=
  let b := b.setenv "HOME" sandboxHome
  let b := b.setenv "XDG_CONFIG_HOME" (sandboxHome ++ "/.config")
  let b := b.setenv "XDG_DATA_HOME" (sandboxHome ++ "/.local/share")
  let b := b.setenv "XDG_CACHE_HOME" (sandboxHome ++ "/.cache")
  let b := b.setenv "MISE_DATA_DIR" (h.home ++ "/.local/share/mise")
  let b := b.setenv "MISE_CONFIG_DIR" (h.home ++ "/.config/mise")
  let b := b.setenv "CARGO_HOME" (h.home ++ "/.cargo")
  let b := b.setenv "RUSTUP_HOME" (h.home ++ "/.rustup")
  let b := b.setenv "PATH" ((h.getenv "PATH").getD "")
  let b := b.setenv "TERM" settings.term
  let b := b.setenv "LANG" settings.lang
  let b := b.setenv "SHELL" settings.shell
  let passVar := fun (b1 : BwrapBuilder) (v : String) =>
    match h.getenv v with
    | some value => if value = "" then b1 else b1.setenv v value
    | none => b1
  let b := ["GIT_AUTHOR_NAME", "GIT_AUTHOR_EMAIL", "GIT_COMMITTER_NAME",
            "GIT_COMMITTER_EMAIL"].foldl passVar b
  let b := ["http_proxy", "https_proxy", "HTTP_PROXY", "HTTPS_PROXY",
            "no_proxy", "NO_PROXY"].foldl passVar b
  passVar b "ANTHROPIC_API_KEY"

/-- Model of clod.sandbox.apply_dev_profile: the fixed dev-profile policy
driving the builder. -/
def apply_dev_profile (b : BwrapBuilder) (h : Host) (projectDir sandboxHome : String)
    (settings : ClodSettings) : BwrapBuilder :=
  let b := b.unshare ["user", "pid", "uts", "ipc", "cgroup"]
  let b := b.system_base h
  let b := b.system_dns h
  let b := b.system_ssl h
  let b := b.system_users h
  let b := if h.isDir "/etc/alternatives" then (b.ro_bind h "/etc/alternatives" none).1 else b
  let b := b.proc "/proc"
  let b := b.dev "/dev"
  let b := b.tmpfs "/tmp"
  let b := b.tmpfs "/run"
  let b := b.bind_path_dirs h
  let b := bind_toolchain_dirs b h
  let b := (b.bind h projectDir none).1
  let b := (b.bind h sandboxHome none).1
  let b := setup_environment b h sandboxHome settings
  b.chdir projectDir

/-- The builder the jail command assembles: the dev profile on a fresh
builder (initialize_sandbox), then the late network-namespace unshare when
enable_network is false. -/
def jailBuilder (h : Host) (projectDir sandboxHome : String)
    (settings : ClodSettings) : BwrapBuilder :=
  let b := apply_dev_profile BwrapBuilder.empty h projectDir sandboxHome settings
  if settings.enable_network then b else b.unshare ["net"]

/-! ### Specification-side helper definitions and concrete scenarios -/

/-- Specification of the value a merged dict holds at a key supplied by the
override: the recursive merge when both sides hold tables, otherwise the
override value wholesale. -/
def mergeValSpec (a : Option TomlVal) (v : TomlVal) : TomlVal :=
  match v with
  | TomlVal.vtable ot =>
    match a with
    | some (TomlVal.vtable bt) => TomlVal.vtable (deep_merge bt ot)
    | _ => TomlVal.vtable ot
  | v1 => v1

/-- Specification of a single-key lookup in a deep merge: the base value
when the override does not supply the key, otherwise mergeValSpec. -/
def mergeLookupSpec (a b : Option TomlVal) : Option TomlVal :=
  match b with
  | none => a
  | some v => some (mergeValSpec a v)

/-- First supplied value in a precedence-ordered list (head has highest
precedence). -/
def firstSome {α : Type} : List (Option α) → Option α
  | [] => none
  | some a :: _ => some a
  | none :: rest => firstSome rest

/-- String a source value supplies for a string-typed field, when
well-typed. -/
def strFrom (o : Option TomlVal) : Option String :=
  match o with
  | some (TomlVal.vstr s) => some s
  | _ => none

/-- Boolean a source value supplies for a boolean-typed field, when
well-typed. -/
def boolFrom (o : Option TomlVal) : Option Bool :=
  match o with
  | some (TomlVal.vbool b) => some b
  | _ => none

/-- A dict supplies only well-typed string values at the key (or nothing). -/
def suppliesStr (d : Dict) (key : String) : Prop :=
  ∀ v, dictGet d key = some v → ∃ s, v = TomlVal.vstr s

/-- A dict supplies only well-typed boolean values at the key (or nothing). -/
def suppliesBool (d : Dict) (key : String) : Prop :=
  ∀ v, dictGet d key = some v → ∃ b, v = TomlVal.vbool b

/-- Specification of the resolved value of a string field: the
highest-precedence source supplying it, in the order constructor kwargs,
environment variable, project-local file, project-base file, user file,
field default. -/
def strResolved (init : Dict) (h : Host) (user base local_ : Dict)
    (key dflt : String) : String :=
  (firstSome [strFrom (dictGet init key), h.getenv ("CLOD_" ++ strUpper key),
              strFrom (dictGet local_ key), strFrom (dictGet base key),
              strFrom (dictGet user key)]).getD dflt

/-- Specification of the resolved value of a boolean field: same precedence
order as strResolved, the environment value going through lax bool parsing. -/
def boolResolved (init : Dict) (h : Host) (user base local_ : Dict)
    (key : String) (dflt : Bool) : Bool :=
  (firstSome [boolFrom (dictGet init key),
              (h.getenv ("CLOD_" ++ strUpper key)).bind parseEnvBool,
              boolFrom (dictGet local_ key), boolFrom (dictGet base key),
              boolFrom (dictGet user key)]).getD dflt

/-- Directory-creation invariant of a builder: the directory-creation
segment is a run of dir operations over a duplicate-free list of
directories, each marked in the registry. -/
def DirInv (b : BwrapBuilder) : Prop :=
  ∃ ds : List String,
    b.pre_args = ds.flatMap (fun d => ["--dir", d]) ∧ ds.Nodup ∧
      ∀ d ∈ ds, ("dir:" ++ d) ∈ b.seen

/-- One public BwrapBuilder operation, for quantifying over call sequences. -/
inductive BuilderOp where
  | roBind : String → Option String → BuilderOp
  | rwBind : String → Option String → BuilderOp
  | mkTmpfs : String → BuilderOp
  | mkSymlink : String → String → BuilderOp
  | mountDev : String → BuilderOp
  | mountProc : String → BuilderOp
  | envSet : String → String → BuilderOp
  | setChdir : String → BuilderOp
  | unshareNs : List String → BuilderOp
  | shareNs : List String → BuilderOp

/-- Apply one public operation to a builder. -/
def applyOp (h : Host) (b : BwrapBuilder) : BuilderOp → BwrapBuilder
  | BuilderOp.roBind s d => (b.ro_bind h s d).1
  | BuilderOp.rwBind s d => (b.bind h s d).1
  | BuilderOp.mkTmpfs p => b.tmpfs p
  | BuilderOp.mkSymlink t l => b.symlink t l
  | BuilderOp.mountDev p => b.dev p
  | BuilderOp.mountProc p => b.proc p
  | BuilderOp.envSet n v => b.setenv n v
  | BuilderOp.setChdir p => b.chdir p
  | BuilderOp.unshareNs ns => b.unshare ns
  | BuilderOp.shareNs ns => b.share ns

/-- Namespace flags one operation contributes: only the namespace
operations produce any. -/
def nsContrib : BuilderOp → List String
  | BuilderOp.unshareNs ns => ns.filterMap unshareFlag
  | BuilderOp.shareNs ns => (ns.filter (fun n => n = "net")).map (fun _ => "--share-net")
  | _ => []

/-- Environment tokens one operation contributes: only setenv produces
any. -/
def envContrib : BuilderOp → List String
  | BuilderOp.envSet n v => ["--setenv", n, v]
  | _ => []

/-- Host for the PATH-deduplication scenario: only the directory /x exists
and the host PATH names it twice. -/
def hostPathDup : Host :=
  { pathExists := fun s => s = "/x", isDir := fun s => s = "/x",
    isFile := fun _ => false, isSymlink := fun _ => false,
    resolve := id,
    getenv := fun n => if n = "PATH" then some "/x:/x" else none,
    home := "/home/u" }

/-- Host for the env-override scenario: no filesystem paths, only
CLOD_SANDBOX_NAME set in the environment. -/
def hostEnvY : Host :=
  { pathExists := fun _ => false, isDir := fun _ => false,
    isFile := fun _ => false, isSymlink := fun _ => false,
    resolve := id,
    getenv := fun n => if n = "CLOD_SANDBOX_NAME" then some ".y" else none,
    home := "/home/u" }

/-- Config filesystem for the env-override scenario: the project base file
sets sandbox_name to .x. -/
def fsSandboxX : ConfigFS :=
  { files := [("/proj/clod.toml", [("sandbox_name", TomlVal.vstr ".x")])] }

/-- Host with an empty environment and no filesystem paths except /x. -/
def hostBare : Host :=
  { pathExists := fun s => s = "/x", isDir := fun _ => false,
    isFile := fun _ => false, isSymlink := fun _ => false,
    resolve := id, getenv := fun _ => none, home := "/home/u" }

/-- Config filesystem for the network scenario: the project base file
disables the network. -/
def fsNetOff : ConfigFS :=
  { files := [("/proj/clod.toml", [("enable_network", TomlVal.vbool false)])] }

/-! ### Dictionary lemmas -/

theorem dictGet_dictSet_self (d : Dict) (k : String) (v : TomlVal) :
    dictGet (dictSet d k v) k = some v := by
  induction d with
  | nil => simp [dictGet, dictSet]
  | cons hd tl ih =>
    obtain ⟨k1, v1⟩ := hd
    by_cases hk : k1 = k
    · simp [dictGet, dictSet, hk]
    · simp [dictGet, dictSet, hk, ih]

theorem dictGet_dictSet_ne (d : Dict) (k q : String) (v : TomlVal) (hne : q ≠ k) :
    dictGet (dictSet d k v) q = dictGet d q := by
  induction d with
  | nil =>
    simp only [dictSet, dictGet]
    rw [if_neg (fun h => hne h.symm)]
  | cons hd tl ih =>
    obtain ⟨k1, v1⟩ := hd
    by_cases hk : k1 = k
    · subst hk
      simp only [dictSet, if_pos rfl, dictGet]
      rw [if_neg (fun h => hne h.symm), if_neg (fun h => hne h.symm)]
    · simp only [dictSet, if_neg hk, dictGet]
      by_cases hq : k1 = q
      · rw [if_pos hq, if_pos hq]
      · rw [if_neg hq, if_neg hq, ih]

theorem dictGet_eq_none_of_not_mem (d : Dict) (q : String)
    (hq : q ∉ d.map Prod.fst) : dictGet d q = none := by
  induction d with
  | nil => rfl
  | cons hd tl ih =>
    obtain ⟨k1, v1⟩ := hd
    simp only [List.map_cons, List.mem_cons] at hq
    push_neg at hq
    simp only [dictGet]
    rw [if_neg (fun h => hq.1 h.symm), ih hq.2]

theorem deep_merge_nil (a : Dict) : deep_merge a [] = a := by
  simp [deep_merge]

theorem deep_merge_cons (a : Dict) (k : String) (ov : TomlVal) (rest : Dict) :
    deep_merge a ((k, ov) :: rest) =
      deep_merge (dictSet a k (mergeValSpec (dictGet a k) ov)) rest := by
  cases ov with
  | vtable ot =>
    rw [deep_merge]
    rcases hga : dictGet a k with _ | gv
    · simp [mergeValSpec, hga]
    · cases gv <;> simp [mergeValSpec, hga]
  | vstr s => simp [deep_merge, mergeValSpec]
  | vint n => simp [deep_merge, mergeValSpec]
  | vbool bo => simp [deep_merge, mergeValSpec]
  | vlist l => simp [deep_merge, mergeValSpec]

theorem dictGet_deep_merge (a b : Dict) (q : String)
    (hb : (b.map Prod.fst).Nodup) :
    dictGet (deep_merge a b) q = mergeLookupSpec (dictGet a q) (dictGet b q) := by
  induction b generalizing a with
  | nil => rw [deep_merge_nil]; rfl
  | cons hd rest ih =>
    obtain ⟨k, ov⟩ := hd
    simp only [List.map_cons, List.nodup_cons] at hb
    rw [deep_merge_cons, ih _ hb.2]
    by_cases hq : q = k
    · subst hq
      rw [dictGet_eq_none_of_not_mem rest q hb.1, dictGet_dictSet_self]
      simp only [dictGet, if_pos rfl]
      rfl
    · rw [dictGet_dictSet_ne _ _ _ _ hq]
      simp only [dictGet]
      rw [if_neg (fun h => hq h.symm)]

/-! ### Builder lemmas -/

theorem ensureParentLoop_ns (parts : List String) (acc : String) (b : BwrapBuilder) :
    (ensureParentLoop parts acc b).ns_args = b.ns_args := by
  induction parts generalizing acc b with
  | nil => rfl
  | cons p rest ih =>
    simp only [ensureParentLoop]
    split
    · exact ih _ _
    · rw [ih]

theorem ensureParentLoop_bind (parts : List String) (acc : String) (b : BwrapBuilder) :
    (ensureParentLoop parts acc b).bind_args = b.bind_args := by
  induction parts generalizing acc b with
  | nil => rfl
  | cons p rest ih =>
    simp only [ensureParentLoop]
    split
    · exact ih _ _
    · rw [ih]

theorem ensureParentLoop_env (parts : List String) (acc : String) (b : BwrapBuilder) :
    (ensureParentLoop parts acc b).env_args = b.env_args := by
  induction parts generalizing acc b with
  | nil => rfl
  | cons p rest ih =>
    simp only [ensureParentLoop]
    split
    · exact ih _ _
    · rw [ih]

theorem ensureParentLoop_pre (parts : List String) (acc : String) (b : BwrapBuilder) :
    b.pre_args <+: (ensureParentLoop parts acc b).pre_args := by
  induction parts generalizing acc b with
  | nil => exact List.prefix_rfl
  | cons p rest ih =>
    simp only [ensureParentLoop]
    split
    · exact ih _ _
    · exact (List.prefix_append _ _).trans
        (ih (acc ++ "/" ++ p)
          { b with pre_args := b.pre_args ++ ["--dir", acc ++ "/" ++ p],
                   seen := b.seen.insert ("dir:" ++ (acc ++ "/" ++ p)) })

theorem ensure_parent_ns (b : BwrapBuilder) (t : String) :
    (b.ensure_parent t).ns_args = b.ns_args := by
  rw [BwrapBuilder.ensure_parent]
  split
  · rfl
  · exact ensureParentLoop_ns _ _ _

theorem ensure_parent_bind (b : BwrapBuilder) (t : String) :
    (b.ensure_parent t).bind_args = b.bind_args := by
  rw [BwrapBuilder.ensure_parent]
  split
  · rfl
  · exact ensureParentLoop_bind _ _ _

theorem ensure_parent_env (b : BwrapBuilder) (t : String) :
    (b.ensure_parent t).env_args = b.env_args := by
  rw [BwrapBuilder.ensure_parent]
  split
  · rfl
  · exact ensureParentLoop_env _ _ _

theorem ensure_parent_pre (b : BwrapBuilder) (t : String) :
    b.pre_args <+: (b.ensure_parent t).pre_args := by
  rw [BwrapBuilder.ensure_parent]
  split
  · exact List.prefix_rfl
  · exact ensureParentLoop_pre _ _ _

theorem appendBind_ns (flag : String) (b : BwrapBuilder) (h : Host) (src dstStr : String) :
    (appendBind flag b h src dstStr).ns_args = b.ns_args := by
  simp only [appendBind]
  exact ensure_parent_ns _ _

theorem appendBind_env (flag : String) (b : BwrapBuilder) (h : Host) (src dstStr : String) :
    (appendBind flag b h src dstStr).env_args = b.env_args := by
  simp only [appendBind]
  exact ensure_parent_env _ _

theorem appendBind_pre (flag : String) (b : BwrapBuilder) (h : Host) (src dstStr : String) :
    b.pre_args <+: (appendBind flag b h src dstStr).pre_args := by
  simp only [appendBind]
  exact ensure_parent_pre _ _

theorem appendBind_bindArgs (flag : String) (b : BwrapBuilder) (h : Host) (src dstStr : String) :
    b.bind_args <+: (appendBind flag b h src dstStr).bind_args := by
  simp only [appendBind]
  show b.bind_args <+: (b.ensure_parent (pathParent dstStr)).bind_args ++ _
  rw [ensure_parent_bind]
  exact List.prefix_append _ _

theorem ro_bind_parts (b : BwrapBuilder) (h : Host) (s : String) (d : Option String) :
    ((b.ro_bind h s d).1).ns_args = b.ns_args ∧
    ((b.ro_bind h s d).1).env_args = b.env_args ∧
    b.pre_args <+: ((b.ro_bind h s d).1).pre_args ∧
    b.bind_args <+: ((b.ro_bind h s d).1).bind_args := by
  rw [BwrapBuilder.ro_bind]
  by_cases he : h.pathExists s = true
  · rw [if_pos he]
    by_cases hm : ("bind:" ++ pathStr (bindDst s d)) ∈ b.seen
    · rw [if_pos hm]
      exact ⟨rfl, rfl, List.prefix_rfl, List.prefix_rfl⟩
    · rw [if_neg hm]
      exact ⟨appendBind_ns _ _ _ _ _, appendBind_env _ _ _ _ _,
             appendBind_pre _ _ _ _ _, appendBind_bindArgs _ _ _ _ _⟩
  · rw [if_neg he]
    exact ⟨rfl, rfl, List.prefix_rfl, List.prefix_rfl⟩

theorem rw_bind_parts (b : BwrapBuilder) (h : Host) (s : String) (d : Option String) :
    ((b.bind h s d).1).ns_args = b.ns_args ∧
    ((b.bind h s d).1).env_args = b.env_args ∧
    b.pre_args <+: ((b.bind h s d).1).pre_args ∧
    b.bind_args <+: ((b.bind h s d).1).bind_args := by
  rw [BwrapBuilder.bind]
  by_cases he : h.pathExists s = true
  · rw [if_pos he]
    by_cases hm : ("bind:" ++ pathStr (bindDst s d)) ∈ b.seen
    · rw [if_pos hm]
      exact ⟨rfl, rfl, List.prefix_rfl, List.prefix_rfl⟩
    · rw [if_neg hm]
      exact ⟨appendBind_ns _ _ _ _ _, appendBind_env _ _ _ _ _,
             appendBind_pre _ _ _ _ _, appendBind_bindArgs _ _ _ _ _⟩
  · rw [if_neg he]
    exact ⟨rfl, rfl, List.prefix_rfl, List.prefix_rfl⟩

theorem tmpfs_ns (b : BwrapBuilder) (p : String) :
    (b.tmpfs p).ns_args = b.ns_args := ensure_parent_ns _ _

theorem tmpfs_env (b : BwrapBuilder) (p : String) :
    (b.tmpfs p).env_args = b.env_args := ensure_parent_env _ _

theorem unshare_ns (b : BwrapBuilder) (l : List String) :
    (b.unshare l).ns_args = b.ns_args ++ l.filterMap unshareFlag := by
  induction l generalizing b with
  | nil => simp [BwrapBuilder.unshare]
  | cons n rest ih =>
    simp only [BwrapBuilder.unshare, List.foldl_cons, List.filterMap_cons]
    rcases hf : unshareFlag n with _ | flag
    · simpa [BwrapBuilder.unshare, hf] using ih b
    · simpa [BwrapBuilder.unshare, hf] using ih { b with ns_args := b.ns_args ++ [flag] }

theorem unshare_other (b : BwrapBuilder) (l : List String) :
    (b.unshare l).pre_args = b.pre_args ∧ (b.unshare l).bind_args = b.bind_args ∧
      (b.unshare l).env_args = b.env_args ∧ (b.unshare l).seen = b.seen := by
  induction l generalizing b with
  | nil => exact ⟨rfl, rfl, rfl, rfl⟩
  | cons n rest ih =>
    simp only [BwrapBuilder.unshare, List.foldl_cons]
    rcases hf : unshareFlag n with _ | flag
    · simpa [BwrapBuilder.unshare, hf] using ih b
    · simpa [BwrapBuilder.unshare, hf] using ih { b with ns_args := b.ns_args ++ [flag] }

theorem share_ns (b : BwrapBuilder) (l : List String) :
    (b.share l).ns_args =
      b.ns_args ++ (l.filter (fun n => n = "net")).map (fun _ => "--share-net") := by
  induction l generalizing b with
  | nil => simp [BwrapBuilder.share]
  | cons n rest ih =>
    simp only [BwrapBuilder.share, List.foldl_cons, List.filter_cons]
    by_cases hn : n = "net"
    · simpa [BwrapBuilder.share, hn] using
        ih { b with ns_args := b.ns_args ++ ["--share-net"] }
    · simpa [BwrapBuilder.share, hn] using ih b

theorem share_other (b : BwrapBuilder) (l : List String) :
    (b.share l).pre_args = b.pre_args ∧ (b.share l).bind_args = b.bind_args ∧
      (b.share l).env_args = b.env_args ∧ (b.share l).seen = b.seen := by
  induction l generalizing b with
  | nil => exact ⟨rfl, rfl, rfl, rfl⟩
  | cons n rest ih =>
    simp only [BwrapBuilder.share, List.foldl_cons]
    by_cases hn : n = "net"
    · simpa [BwrapBuilder.share, hn] using
        ih { b with ns_args := b.ns_args ++ ["--share-net"] }
    · simpa [BwrapBuilder.share, hn] using ih b

theorem tmpfs_parts (b : BwrapBuilder) (p : String) :
    (b.tmpfs p).ns_args = b.ns_args ∧ (b.tmpfs p).env_args = b.env_args ∧
    b.pre_args <+: (b.tmpfs p).pre_args ∧ b.bind_args <+: (b.tmpfs p).bind_args := by
  refine ⟨ensure_parent_ns _ _, ensure_parent_env _ _, ensure_parent_pre _ _, ?_⟩
  show b.bind_args <+: (b.ensure_parent p).bind_args ++ _
  rw [ensure_parent_bind]
  exact List.prefix_append _ _

/-- Every single public builder operation leaves the namespace and
environment segments changed only by that operation's own contribution and
only extends the directory-creation and bind segments. -/
theorem applyOp_parts (h : Host) (b : BwrapBuilder) (op : BuilderOp) :
    (applyOp h b op).ns_args = b.ns_args ++ nsContrib op ∧
    (applyOp h b op).env_args = b.env_args ++ envContrib op ∧
    b.pre_args <+: (applyOp h b op).pre_args ∧
    b.bind_args <+: (applyOp h b op).bind_args := by
  cases op with
  | roBind s d =>
    obtain ⟨h1, h2, h3, h4⟩ := ro_bind_parts b h s d
    exact ⟨by simp [applyOp, nsContrib, h1], by simp [applyOp, envContrib, h2], h3, h4⟩
  | rwBind s d =>
    obtain ⟨h1, h2, h3, h4⟩ := rw_bind_parts b h s d
    exact ⟨by simp [applyOp, nsContrib, h1], by simp [applyOp, envContrib, h2], h3, h4⟩
  | mkTmpfs p =>
    obtain ⟨h1, h2, h3, h4⟩ := tmpfs_parts b p
    exact ⟨by simp [applyOp, nsContrib, h1], by simp [applyOp, envContrib, h2], h3, h4⟩
  | mkSymlink t l =>
    exact ⟨by simp [applyOp, nsContrib, BwrapBuilder.symlink],
           by simp [applyOp, envContrib, BwrapBuilder.symlink],
           List.prefix_rfl, List.prefix_append _ _⟩
  | mountDev p =>
    exact ⟨by simp [applyOp, nsContrib, BwrapBuilder.dev],
           by simp [applyOp, envContrib, BwrapBuilder.dev],
           List.prefix_rfl, List.prefix_append _ _⟩
  | mountProc p =>
    exact ⟨by simp [applyOp, nsContrib, BwrapBuilder.proc],
           by simp [applyOp, envContrib, BwrapBuilder.proc],
           List.prefix_rfl, List.prefix_append _ _⟩
  | envSet n v =>
    exact ⟨by simp [applyOp, nsContrib, BwrapBuilder.setenv],
           by simp [applyOp, envContrib, BwrapBuilder.setenv],
           List.prefix_rfl, List.prefix_rfl⟩
  | setChdir p =>
    exact ⟨by simp [applyOp, nsContrib, BwrapBuilder.chdir],
           by simp [applyOp, envContrib, BwrapBuilder.chdir],
           List.prefix_rfl, List.prefix_append _ _⟩
  | unshareNs ns =>
    obtain ⟨h1, h2, h3, _⟩ := unshare_other b ns
    exact ⟨by simpa [applyOp, nsContrib] using unshare_ns b ns,
           by simp [applyOp, envContrib, h3],
           by simp only [applyOp, h1]; exact List.prefix_rfl,
           by simp only [applyOp, h2]; exact List.prefix_rfl⟩
  | shareNs ns =>
    obtain ⟨h1, h2, h3, _⟩ := share_other b ns
    exact ⟨by simpa [applyOp, nsContrib] using share_ns b ns,
           by simp [applyOp, envContrib, h3],
           by simp only [applyOp, h1]; exact List.prefix_rfl,
           by simp only [applyOp, h2]; exact List.prefix_rfl⟩

theorem ensureParentLoop_dirInv (parts : List String) (acc : String)
    (b : BwrapBuilder) (hb : DirInv b) : DirInv (ensureParentLoop parts acc b) := by
  induction parts generalizing acc b with
  | nil => exact hb
  | cons p rest ih =>
    simp only [ensureParentLoop]
    by_cases hk : ("dir:" ++ (acc ++ "/" ++ p)) ∈ b.seen
    · rw [if_pos hk]
      exact ih _ _ hb
    · rw [if_neg hk]
      refine ih _ _ ?_
      obtain ⟨ds, hpre, hnd, hmem⟩ := hb
      refine ⟨ds ++ [acc ++ "/" ++ p], ?_, ?_, ?_⟩
      · show b.pre_args ++ ["--dir", acc ++ "/" ++ p] = _
        rw [hpre, List.flatMap_append]
        simp
      · rw [List.nodup_append]
        refine ⟨hnd, List.nodup_singleton _, ?_⟩
        intro d hd hd1
        simp only [List.mem_singleton] at hd1
        subst hd1
        exact hk (hmem _ hd)
      · intro d hd
        rcases List.mem_append.1 hd with hd | hd
        · exact List.mem_insert_iff.2 (Or.inr (hmem d hd))
        · simp only [List.mem_singleton] at hd
          subst hd
          exact List.mem_insert_iff.2 (Or.inl rfl)

theorem ensure_parent_dirInv (b : BwrapBuilder) (t : String) (hb : DirInv b) :
    DirInv (b.ensure_parent t) := by
  rw [BwrapBuilder.ensure_parent]
  split
  · exact hb
  · exact ensureParentLoop_dirInv _ _ _ hb

theorem ensureParentLoop_no_marked (parts : List String) (acc : String)
    (b : BwrapBuilder) (link : String) (hmem : ("dir:" ++ link) ∈ b.seen) :
    ∃ ds : List String,
      (ensureParentLoop parts acc b).pre_args =
        b.pre_args ++ ds.flatMap (fun d => ["--dir", d]) ∧ link ∉ ds := by
  induction parts generalizing acc b with
  | nil => exact ⟨[], by simp [ensureParentLoop], by simp⟩
  | cons p rest ih =>
    simp only [ensureParentLoop]
    by_cases hk : ("dir:" ++ (acc ++ "/" ++ p)) ∈ b.seen
    · rw [if_pos hk]
      exact ih _ _ hmem
    · rw [if_neg hk]
      obtain ⟨ds, hpre, hnot⟩ :=
        ih (acc ++ "/" ++ p)
          { b with pre_args := b.pre_args ++ ["--dir", acc ++ "/" ++ p],
                   seen := b.seen.insert ("dir:" ++ (acc ++ "/" ++ p)) }
          (List.mem_insert_iff.2 (Or.inr hmem))
      refine ⟨(acc ++ "/" ++ p) :: ds, ?_, ?_⟩
      · rw [hpre]
        simp
      · intro hcon
        rcases List.mem_cons.1 hcon with hcon | hcon
        · exact hk (hcon ▸ hmem)
        · exact hnot hcon

/-! ### Claim theorems -/

/-- Claim C1: once a destination is recorded as bound, a later ro_bind or
bind call with the same destination and any existing source succeeds,
appends nothing, and leaves the rendered plan unchanged; moreover every
successful bind records its destination, and a host PATH naming the same
directory twice yields exactly one read-only bind in the rendered plan. -/
theorem bind_dedup_idempotent :
    (∀ (h : Host) (b : BwrapBuilder) (src : String) (dst : Option String),
      h.pathExists src = true →
      ("bind:" ++ pathStr (bindDst src dst)) ∈ b.seen →
      b.ro_bind h src dst = (b, true) ∧ b.bind h src dst = (b, true) ∧
        ((b.ro_bind h src dst).1).build = b.build)
    ∧ (∀ (h : Host) (b : BwrapBuilder) (src : String) (dst : Option String),
      h.pathExists src = true →
      ("bind:" ++ pathStr (bindDst src dst)) ∈ ((b.ro_bind h src dst).1).seen ∧
      ("bind:" ++ pathStr (bindDst src dst)) ∈ ((b.bind h src dst).1).seen)
    ∧ (BwrapBuilder.empty.bind_path_dirs hostPathDup).build
        = ["bwrap", "--die-with-parent", "--new-session", "--ro-bind", "/x", "/x"] := by
  refine ⟨?_, ?_, ?_⟩
  · intro h b src dst he hm
    have e1 : b.ro_bind h src dst = (b, true) := by
      rw [BwrapBuilder.ro_bind, if_pos he, if_pos hm]
    have e2 : b.bind h src dst = (b, true) := by
      rw [BwrapBuilder.bind, if_pos he, if_pos hm]
    exact ⟨e1, e2, by rw [e1]⟩
  · intro h b src dst he
    constructor
    · by_cases hm : ("bind:" ++ pathStr (bindDst src dst)) ∈ b.seen
      · rw [BwrapBuilder.ro_bind, if_pos he, if_pos hm]
        exact hm
      · rw [BwrapBuilder.ro_bind, if_pos he, if_neg hm]
        simp only [appendBind]
        exact List.mem_insert_self _ _
    · by_cases hm : ("bind:" ++ pathStr (bindDst src dst)) ∈ b.seen
      · rw [BwrapBuilder.bind, if_pos he, if_pos hm]
        exact hm
      · rw [BwrapBuilder.bind, if_pos he, if_neg hm]
        simp only [appendBind]
        exact List.mem_insert_self _ _
  · rfl

/-- Witness for C1: binding /x a second time on the same host is the
identity and still reports success. -/
theorem bind_dedup_idempotent_witness :
    (BwrapBuilder.empty.ro_bind hostPathDup "/x" none).1.ro_bind hostPathDup "/x" none
      = ((BwrapBuilder.empty.ro_bind hostPathDup "/x" none).1, true) :=
  (bind_dedup_idempotent.1 hostPathDup
    (BwrapBuilder.empty.ro_bind hostPathDup "/x" none).1 "/x" none
    (by decide) (by decide)).1

/-- Claim C2: deep_merge is pure (its Lean model is a function of its
arguments) and, at every key, holds the recursive merge when both sides
hold tables, the override value wholesale otherwise (sequences included),
the base value when the override lacks the key, and the override value
when the base lacks it. -/
theorem deep_merge_correct (A B : Dict) (hb : (B.map Prod.fst).Nodup) :
    (∀ (q : String) (bt ot : Dict),
      dictGet A q = some (TomlVal.vtable bt) →
      dictGet B q = some (TomlVal.vtable ot) →
      dictGet (deep_merge A B) q = some (TomlVal.vtable (deep_merge bt ot)))
    ∧ (∀ (q : String) (va vb : TomlVal),
      dictGet A q = some va → dictGet B q = some vb →
      (∀ bt ot : Dict, va = TomlVal.vtable bt → vb = TomlVal.vtable ot → False) →
      dictGet (deep_merge A B) q = some vb)
    ∧ (∀ q : String, dictGet B q = none →
      dictGet (deep_merge A B) q = dictGet A q)
    ∧ (∀ (q : String) (vb : TomlVal), dictGet A q = none →
      dictGet B q = some vb → dictGet (deep_merge A B) q = some vb) := by
  refine ⟨?_, ?_, ?_, ?_⟩
  · intro q bt ot ha hbq
    rw [dictGet_deep_merge A B q hb, ha, hbq]
    rfl
  · intro q va vb ha hbq hnt
    rw [dictGet_deep_merge A B q hb, ha, hbq]
    cases vb with
    | vtable ot =>
      cases va with
      | vtable bt => exact (hnt bt ot rfl rfl).elim
      | vstr s => rfl
      | vint n => rfl
      | vbool bo => rfl
      | vlist l => rfl
    | vstr s => rfl
    | vint n => rfl
    | vbool bo => rfl
    | vlist l => rfl
  · intro q hbq
    rw [dictGet_deep_merge A B q hb, hbq]
    rfl
  · intro q vb ha hbq
    rw [dictGet_deep_merge A B q hb, ha, hbq]
    cases vb <;> rfl

/-- Witness for C2: a conflicting sequence-valued key takes the override
sequence wholesale. -/
theorem deep_merge_correct_witness :
    dictGet (deep_merge
        [("a", TomlVal.vtable [("x", TomlVal.vint 1)]),
         ("s", TomlVal.vlist [TomlVal.vint 1, TomlVal.vint 2])]
        [("a", TomlVal.vtable [("y", TomlVal.vint 2)]),
         ("s", TomlVal.vlist [TomlVal.vint 3])]) "s"
      = some (TomlVal.vlist [TomlVal.vint 3]) :=
  (deep_merge_correct
      [("a", TomlVal.vtable [("x", TomlVal.vint 1)]),
       ("s", TomlVal.vlist [TomlVal.vint 1, TomlVal.vint 2])]
      [("a", TomlVal.vtable [("y", TomlVal.vint 2)]),
       ("s", TomlVal.vlist [TomlVal.vint 3])]
      (by decide)).2.1 "s" _ _ rfl rfl
    (fun bt ot hva _ => TomlVal.noConfusion hva)

/-- Claim C6: render is the fixed preamble followed by the namespace,
directory-creation, bind and environment segments in that order, renders of
identical internal state are identical, and every public operation adds
namespace flags and environment tokens only through its own contribution
while only extending the other two segments. -/
theorem render_order_deterministic :
    (∀ b : BwrapBuilder, b.build =
      ["bwrap", "--die-with-parent", "--new-session"]
        ++ b.ns_args ++ b.pre_args ++ b.bind_args ++ b.env_args)
    ∧ (∀ b1 b2 : BwrapBuilder, b1 = b2 → b1.build = b2.build)
    ∧ (∀ (h : Host) (b : BwrapBuilder) (op : BuilderOp),
      (applyOp h b op).ns_args = b.ns_args ++ nsContrib op ∧
      (applyOp h b op).env_args = b.env_args ++ envContrib op ∧
      b.pre_args <+: (applyOp h b op).pre_args ∧
      b.bind_args <+: (applyOp h b op).bind_args) :=
  ⟨fun _ => rfl, fun _ _ hEq => by rw [hEq], applyOp_parts⟩

/-- Witness for C6: renders of the same state agree. -/
theorem render_order_deterministic_witness :
    BwrapBuilder.empty.build = BwrapBuilder.empty.build :=
  render_order_deterministic.2.1 BwrapBuilder.empty BwrapBuilder.empty rfl

/-- Claim C7: ensuring parents of /a/b/c on a fresh builder emits exactly
the directory operations for /a, /a/b, /a/b/c in that order, and across any
sequence of invocations the directory-creation segment stays a run of
dir operations over a duplicate-free registry-backed list, so each
directory is emitted at most once. -/
theorem ensure_parents_once :
    (∀ (b : BwrapBuilder) (t : String), DirInv b → DirInv (b.ensure_parent t))
    ∧ (BwrapBuilder.empty.ensure_parent "/a/b/c").pre_args
        = ["--dir", "/a", "--dir", "/a/b", "--dir", "/a/b/c"]
    ∧ DirInv BwrapBuilder.empty := by
  refine ⟨ensure_parent_dirInv, by rfl, ⟨[], rfl, List.nodup_nil, by simp⟩⟩

/-- Witness for C7: the invariant holds after ensuring /a/b/c on a fresh
builder. -/
theorem ensure_parents_once_witness :
    DirInv (BwrapBuilder.empty.ensure_parent "/a/b/c") :=
  ensure_parents_once.1 BwrapBuilder.empty "/a/b/c"
    ⟨[], rfl, List.nodup_nil, by simp⟩

/-- Counterexample to C9 as stated: after declaring the symlink /bin, a
bind whose destination is nested two levels below /bin does emit a
directory-creation operation for the intermediate component /bin/a. -/
theorem symlink_nested_dir_emitted :
    ((BwrapBuilder.empty.symlink "usr/bin" "/bin").ro_bind hostBare "/x"
        (some "/bin/a/c")).1.pre_args = ["--dir", "/bin/a"] ∧
    ((BwrapBuilder.empty.symlink "usr/bin" "/bin").ro_bind hostBare "/x"
        (some "/bin/a/c")).1.pre_args ≠ [] := ⟨rfl, by decide⟩

/-- Claim C9 (amended): declare_symlink marks only the link path itself as
directory-ensured — no later parent-ensuring ever emits a dir operation for
the link, and a bind whose destination is a direct child of the link emits
no dir operation at all — but a deeper bind still emits dir operations for
the intermediate components strictly below the link. -/
theorem symlink_marks_link_only :
    (∀ (b : BwrapBuilder) (t link : String), ("dir:" ++ link) ∈ b.seen →
      ∃ ds : List String,
        (b.ensure_parent t).pre_args =
          b.pre_args ++ ds.flatMap (fun d => ["--dir", d]) ∧ link ∉ ds)
    ∧ (∀ (b : BwrapBuilder) (target link : String),
      ("dir:" ++ link) ∈ (b.symlink target link).seen)
    ∧ ((BwrapBuilder.empty.symlink "usr/bin" "/bin").ro_bind hostBare "/x"
        (some "/bin/a")).1.pre_args = []
    ∧ ((BwrapBuilder.empty.symlink "usr/bin" "/bin").ro_bind hostBare "/x"
        (some "/bin/a/c")).1.pre_args = ["--dir", "/bin/a"] := by
  refine ⟨?_, ?_, rfl, rfl⟩
  · intro b t link hm
    rw [BwrapBuilder.ensure_parent]
    split
    · exact ⟨[], by simp, by simp⟩
    · exact ensureParentLoop_no_marked _ _ _ _ hm
  · intro b target link
    simp only [BwrapBuilder.symlink]
    exact List.mem_insert_self _ _

/-- Witness for amended C9: ensuring parents under the declared /bin
symlink never emits a dir operation for /bin itself. -/
theorem symlink_marks_link_only_witness :
    ∃ ds : List String,
      ((BwrapBuilder.empty.symlink "usr/bin" "/bin").ensure_parent "/bin/a").pre_args
        = (BwrapBuilder.empty.symlink "usr/bin" "/bin").pre_args
            ++ ds.flatMap (fun d => ["--dir", d]) ∧ "/bin" ∉ ds :=
  symlink_marks_link_only.1 (BwrapBuilder.empty.symlink "usr/bin" "/bin")
    "/bin/a" "/bin" (by decide)

theorem except_bind_error {ε α β : Type} (e : ε) (f : α → Except ε β) :
    (Except.error e >>= f : Except ε β) = Except.error e := rfl

theorem except_bind_ok {ε α β : Type} (a : α) (f : α → Except ε β) :
    (Except.ok a >>= f : Except ε β) = f a := rfl

theorem except_pure {ε α : Type} (a : α) : (pure a : Except ε α) = Except.ok a := rfl

theorem except_map_ok {ε α β : Type} (g : α → β) (a : α) :
    (Except.ok a : Except ε α).map g = Except.ok (g a) := rfl

theorem except_map_error {ε α β : Type} (g : α → β) (e : ε) :
    (Except.error e : Except ε α).map g = Except.error e := rfl

/-- Claim C4: within each tier the two layouts are mutually exclusive —
both base layouts present raises a duplicate-configuration error naming
both paths, both local layouts likewise, and with at most one layout per
tier discovery succeeds and selects the one present file per tier. -/
theorem project_config_exclusive :
    ∀ (fs : ConfigFS) (pd : String),
      (fs.isFile (pd ++ "/clod.toml") = true →
        fs.isFile (pd ++ "/.clod/config.toml") = true →
        discover_project_config fs pd =
          Except.error (CfgErr.duplicateConfig
            [pd ++ "/clod.toml", pd ++ "/.clod/config.toml"]))
      ∧ (¬(fs.isFile (pd ++ "/clod.toml") = true ∧
            fs.isFile (pd ++ "/.clod/config.toml") = true) →
         fs.isFile (pd ++ "/clod.local.toml") = true →
         fs.isFile (pd ++ "/.clod/config.local.toml") = true →
         discover_project_config fs pd =
           Except.error (CfgErr.duplicateConfig
             [pd ++ "/clod.local.toml", pd ++ "/.clod/config.local.toml"]))
      ∧ (¬(fs.isFile (pd ++ "/clod.toml") = true ∧
            fs.isFile (pd ++ "/.clod/config.toml") = true) →
         ¬(fs.isFile (pd ++ "/clod.local.toml") = true ∧
            fs.isFile (pd ++ "/.clod/config.local.toml") = true) →
         discover_project_config fs pd = Except.ok
           ((if fs.isFile (pd ++ "/clod.toml") then some (pd ++ "/clod.toml")
             else if fs.isFile (pd ++ "/.clod/config.toml") then
               some (pd ++ "/.clod/config.toml") else none),
            (if fs.isFile (pd ++ "/clod.local.toml") then
               some (pd ++ "/clod.local.toml")
             else if fs.isFile (pd ++ "/.clod/config.local.toml") then
               some (pd ++ "/.clod/config.local.toml") else none))) := by
  intro fs pd
  rcases hb1 : fs.isFile (pd ++ "/clod.toml") <;>
    rcases hb2 : fs.isFile (pd ++ "/.clod/config.toml") <;>
    rcases hl1 : fs.isFile (pd ++ "/clod.local.toml") <;>
    rcases hl2 : fs.isFile (pd ++ "/.clod/config.local.toml") <;>
    refine ⟨?_, ?_, ?_⟩ <;> intros <;>
    simp_all [discover_project_config, except_pure, except_bind_error] <;> rfl

/-- Witness for C4: with only the root-layout base file present, discovery
selects it and finds no local file. -/
theorem project_config_exclusive_witness :
    discover_project_config fsSandboxX "/proj"
      = Except.ok (some "/proj/clod.toml", none) := by
  have h := (project_config_exclusive fsSandboxX "/proj").2.2
    (by decide) (by decide)
  simpa using h

/-- Claim C5: in explicit-config mode only the named file is loaded, for
every filesystem state — success returns exactly its parsed content, a
missing explicit file is a file-not-found error, and in that case settings
resolution fails with the same error before any plan is built. -/
theorem explicit_config_only :
    ∀ (h : Host) (fs : ConfigFS) (pd f : String),
      (fs.isFile f = true →
        load_all_configs h fs pd (some f) = Except.ok (fs.content f, [f]) ∧
        source_load_configs h fs pd (some f) = Except.ok (fs.content f))
      ∧ (fs.isFile f = false →
        load_all_configs h fs pd (some f) = Except.error (CfgErr.fileNotFound f) ∧
        source_load_configs h fs pd (some f) = Except.error (CfgErr.fileNotFound f) ∧
        clodSettingsNew h fs pd (some f) [] = Except.error (CfgErr.fileNotFound f)) := by
  intro h fs pd f
  constructor
  · intro hf
    constructor
    · simp [load_all_configs, load_toml_file, hf]
    · simp [source_load_configs, source_load_toml, hf]
  · intro hf
    refine ⟨?_, ?_, ?_⟩
    · simp [load_all_configs, load_toml_file, hf]
    · simp [source_load_configs, source_load_toml, hf]
    · simp [clodSettingsNew, source_load_configs, source_load_toml, hf,
            except_bind_error]

/-- Witness for C5: an explicit file that exists is returned as-is with
only itself in the loaded list, and other discoverable files are ignored. -/
theorem explicit_config_only_witness :
    load_all_configs hostBare fsSandboxX "/other" (some "/proj/clod.toml")
      = Except.ok (fsSandboxX.content "/proj/clod.toml", ["/proj/clod.toml"]) :=
  ((explicit_config_only hostBare fsSandboxX "/other" "/proj/clod.toml").1
    (by decide)).1

/-! ### Namespace-segment preservation through the dev profile -/

theorem foldl_ns_preserve {α : Type} (f : BwrapBuilder → α → BwrapBuilder)
    (hf : ∀ (b : BwrapBuilder) (x : α), (f b x).ns_args = b.ns_args) :
    ∀ (l : List α) (b : BwrapBuilder), (l.foldl f b).ns_args = b.ns_args := by
  intro l
  induction l with
  | nil => intro b; rfl
  | cons x rest ih =>
    intro b
    rw [List.foldl_cons, ih, hf]

theorem sysEntry_ns (b : BwrapBuilder) (h : Host) (p t : String) :
    (sysEntry b h p t).ns_args = b.ns_args := by
  rw [sysEntry]
  split
  · rfl
  · split
    · exact (ro_bind_parts b h p none).1
    · rfl

theorem system_base_ns (b : BwrapBuilder) (h : Host) :
    (b.system_base h).ns_args = b.ns_args := by
  simp only [BwrapBuilder.system_base]
  rw [sysEntry_ns, sysEntry_ns, sysEntry_ns, sysEntry_ns,
      (ro_bind_parts b h "/usr" none).1]

theorem system_dns_ns (b : BwrapBuilder) (h : Host) :
    (b.system_dns h).ns_args = b.ns_args := by
  refine foldl_ns_preserve _ ?_ _ b
  intro b1 f
  split
  · exact (ro_bind_parts b1 h f none).1
  · rfl

theorem system_ssl_ns (b : BwrapBuilder) (h : Host) :
    (b.system_ssl h).ns_args = b.ns_args := by
  refine foldl_ns_preserve _ ?_ _ b
  intro b1 p
  split
  · exact (ro_bind_parts b1 h p none).1
  · split
    · exact (ro_bind_parts b1 h p none).1
    · rfl

theorem system_users_ns (b : BwrapBuilder) (h : Host) :
    (b.system_users h).ns_args = b.ns_args := by
  refine foldl_ns_preserve _ ?_ _ b
  intro b1 f
  split
  · exact (ro_bind_parts b1 h f none).1
  · rfl

theorem bind_path_dirs_ns (b : BwrapBuilder) (h : Host) :
    (b.bind_path_dirs h).ns_args = b.ns_args := by
  simp only [BwrapBuilder.bind_path_dirs]
  refine foldl_ns_preserve _ ?_ _ b
  intro b1 d
  split
  · exact (ro_bind_parts b1 h d none).1
  · rfl

theorem bind_toolchain_dirs_ns (b : BwrapBuilder) (h : Host) :
    (bind_toolchain_dirs b h).ns_args = b.ns_args := by
  refine foldl_ns_preserve _ ?_ _ b
  intro b1 p
  split
  · exact (ro_bind_parts b1 h (h.home ++ p) none).1
  · rfl

theorem setup_environment_ns (b : BwrapBuilder) (h : Host) (sh : String)
    (st : ClodSettings) : (setup_environment b h sh st).ns_args = b.ns_args := by
  have hstep : ∀ (b1 : BwrapBuilder) (v : String),
      (match h.getenv v with
       | some value => if value = "" then b1 else b1.setenv v value
       | none => b1).ns_args = b1.ns_args := by
    intro b1 v
    rcases h.getenv v with _ | value
    · rfl
    · dsimp only
      split <;> rfl
  simp only [setup_environment]
  rw [hstep, foldl_ns_preserve _ hstep, foldl_ns_preserve _ hstep]
  simp [BwrapBuilder.setenv]

theorem apply_dev_profile_ns (b : BwrapBuilder) (h : Host) (pd sh : String)
    (st : ClodSettings) :
    (apply_dev_profile b h pd sh st).ns_args =
      b.ns_args ++ ["--unshare-user", "--unshare-pid", "--unshare-uts",
                    "--unshare-ipc", "--unshare-cgroup"] := by
  have halt : ∀ b1 : BwrapBuilder,
      ((if h.isDir "/etc/alternatives" = true then
          (b1.ro_bind h "/etc/alternatives" none).1 else b1) : BwrapBuilder).ns_args
        = b1.ns_args := by
    intro b1
    split
    · exact (ro_bind_parts b1 h "/etc/alternatives" none).1
    · rfl
  simp only [apply_dev_profile, BwrapBuilder.chdir, BwrapBuilder.proc,
             BwrapBuilder.dev]
  rw [setup_environment_ns, (rw_bind_parts _ h sh none).1,
      (rw_bind_parts _ h pd none).1, bind_toolchain_dirs_ns, bind_path_dirs_ns,
      tmpfs_ns, tmpfs_ns, halt, system_users_ns, system_ssl_ns, system_dns_ns,
      system_base_ns, unshare_ns]
  rfl

theorem jailBuilder_ns (h : Host) (pd sh : String) (st : ClodSettings) :
    (jailBuilder h pd sh st).ns_args =
      if st.enable_network then
        ["--unshare-user", "--unshare-pid", "--unshare-uts", "--unshare-ipc",
         "--unshare-cgroup"]
      else
        ["--unshare-user", "--unshare-pid", "--unshare-uts", "--unshare-ipc",
         "--unshare-cgroup", "--unshare-net"] := by
  simp only [jailBuilder]
  split
  · rw [apply_dev_profile_ns]
    rfl
  · rw [unshare_ns, apply_dev_profile_ns]
    rfl

/-- Claim C8: with network disabled the namespace segment of the jail plan
holds the unshare flags for user, pid, uts, ipc, cgroup and net; with
network enabled the net flag is absent and the other five remain; and a
project base file setting enable_network to false resolves to Settings with
enable_network false. -/
theorem network_unshare_flags :
    (∀ (h : Host) (pd sh : String) (st : ClodSettings),
      st.enable_network = false →
      (jailBuilder h pd sh st).ns_args =
        ["--unshare-user", "--unshare-pid", "--unshare-uts", "--unshare-ipc",
         "--unshare-cgroup", "--unshare-net"])
    ∧ (∀ (h : Host) (pd sh : String) (st : ClodSettings),
      st.enable_network = true →
      (jailBuilder h pd sh st).ns_args =
        ["--unshare-user", "--unshare-pid", "--unshare-uts", "--unshare-ipc",
         "--unshare-cgroup"])
    ∧ clodSettingsNew hostBare fsNetOff "/proj" none [] =
        Except.ok { sandbox_name := ".claude-sandbox", enable_network := false,
                    term := "xterm-256color", lang := "en_US.UTF-8",
                    shell := "/bin/bash" } := by
  refine ⟨?_, ?_, ?_⟩
  · intro h pd sh st hst
    rw [jailBuilder_ns, if_neg (by simp [hst])]
  · intro h pd sh st hst
    rw [jailBuilder_ns, if_pos (by simp [hst])]
  · have h1 : discover_user_config hostBare fsNetOff = none := rfl
    have h2 : discover_project_config fsNetOff "/proj"
        = Except.ok (some "/proj/clod.toml", none) := rfl
    have hf : fsNetOff.isFile "/proj/clod.toml" = true := rfl
    have h3 : deep_update [] (fsNetOff.content "/proj/clod.toml")
        = [("enable_network", TomlVal.vbool false)] := by
      show deep_update [] [("enable_network", TomlVal.vbool false)] = _
      simp [deep_update, dictGet, dictSet]
    have h4 : source_load_configs hostBare fsNetOff "/proj" none
        = Except.ok [("enable_network", TomlVal.vbool false)] := by
      simp only [source_load_configs, h1, h2, hf, h3, except_bind_ok,
                 except_pure, source_load_toml, if_true]
    simp only [clodSettingsNew, h4, except_bind_ok]
    rfl

/-! ### Field-resolution precedence lemmas -/

theorem resolveStrField_precedence (init : Dict) (h : Host)
    (user base local_ : Dict) (key dflt : String)
    (hbase : (base.map Prod.fst).Nodup) (hlocal : (local_.map Prod.fst).Nodup)
    (hi : suppliesStr init key) (hu : suppliesStr user key)
    (hb2 : suppliesStr base key) (hl : suppliesStr local_ key) :
    resolveStrField init h (deep_merge (deep_merge user base) local_) key dflt
      = Except.ok (strResolved init h user base local_ key dflt) := by
  simp only [resolveStrField, fieldRaw, strResolved, firstSome, strFrom]
  rw [dictGet_deep_merge _ _ _ hlocal, dictGet_deep_merge _ _ _ hbase]
  rcases hgi : dictGet init key with _ | vi
  · rcases hge : h.getenv ("CLOD_" ++ strUpper key) with _ | e
    · rcases hgu : dictGet user key with _ | vu
      · rcases hgb : dictGet base key with _ | vb2
        · rcases hgl : dictGet local_ key with _ | vl
          · simp [hgi, hge, hgu, hgb, hgl, mergeLookupSpec, firstSome]
          · obtain ⟨s, rfl⟩ := hl _ hgl
            simp [hgi, hge, hgu, hgb, hgl, mergeLookupSpec, mergeValSpec, firstSome]
        · obtain ⟨s, rfl⟩ := hb2 _ hgb
          rcases hgl : dictGet local_ key with _ | vl
          · simp [hgi, hge, hgu, hgb, hgl, mergeLookupSpec, mergeValSpec, firstSome]
          · obtain ⟨s2, rfl⟩ := hl _ hgl
            simp [hgi, hge, hgu, hgb, hgl, mergeLookupSpec, mergeValSpec, firstSome]
      · obtain ⟨s0, rfl⟩ := hu _ hgu
        rcases hgb : dictGet base key with _ | vb2
        · rcases hgl : dictGet local_ key with _ | vl
          · simp [hgi, hge, hgu, hgb, hgl, mergeLookupSpec, mergeValSpec, firstSome]
          · obtain ⟨s, rfl⟩ := hl _ hgl
            simp [hgi, hge, hgu, hgb, hgl, mergeLookupSpec, mergeValSpec, firstSome]
        · obtain ⟨s, rfl⟩ := hb2 _ hgb
          rcases hgl : dictGet local_ key with _ | vl
          · simp [hgi, hge, hgu, hgb, hgl, mergeLookupSpec, mergeValSpec, firstSome]
          · obtain ⟨s2, rfl⟩ := hl _ hgl
            simp [hgi, hge, hgu, hgb, hgl, mergeLookupSpec, mergeValSpec, firstSome]
    · simp [hgi, hge, firstSome]
  · obtain ⟨s, rfl⟩ := hi _ hgi
    simp [hgi, firstSome]

theorem resolveBoolField_precedence (init : Dict) (h : Host)
    (user base local_ : Dict) (key : String) (dflt : Bool)
    (hbase : (base.map Prod.fst).Nodup) (hlocal : (local_.map Prod.fst).Nodup)
    (hi : suppliesBool init key) (hu : suppliesBool user key)
    (hb2 : suppliesBool base key) (hl : suppliesBool local_ key)
    (henv : ∀ s, h.getenv ("CLOD_" ++ strUpper key) = some s →
      (parseEnvBool s).isSome = true) :
    resolveBoolField init h (deep_merge (deep_merge user base) local_) key dflt
      = Except.ok (boolResolved init h user base local_ key dflt) := by
  simp only [resolveBoolField, fieldRaw, boolResolved, firstSome, boolFrom]
  rw [dictGet_deep_merge _ _ _ hlocal, dictGet_deep_merge _ _ _ hbase]
  rcases hgi : dictGet init key with _ | vi
  · rcases hge : h.getenv ("CLOD_" ++ strUpper key) with _ | e
    · rcases hgu : dictGet user key with _ | vu
      · rcases hgb : dictGet base key with _ | vb2
        · rcases hgl : dictGet local_ key with _ | vl
          · simp [hgi, hge, hgu, hgb, hgl, mergeLookupSpec, firstSome]
          · obtain ⟨bv, rfl⟩ := hl _ hgl
            simp [hgi, hge, hgu, hgb, hgl, mergeLookupSpec, mergeValSpec, firstSome]
        · obtain ⟨bv, rfl⟩ := hb2 _ hgb
          rcases hgl : dictGet local_ key with _ | vl
          · simp [hgi, hge, hgu, hgb, hgl, mergeLookupSpec, mergeValSpec, firstSome]
          · obtain ⟨bv2, rfl⟩ := hl _ hgl
            simp [hgi, hge, hgu, hgb, hgl, mergeLookupSpec, mergeValSpec, firstSome]
      · obtain ⟨bv0, rfl⟩ := hu _ hgu
        rcases hgb : dictGet base key with _ | vb2
        · rcases hgl : dictGet local_ key with _ | vl
          · simp [hgi, hge, hgu, hgb, hgl, mergeLookupSpec, mergeValSpec, firstSome]
          · obtain ⟨bv, rfl⟩ := hl _ hgl
            simp [hgi, hge, hgu, hgb, hgl, mergeLookupSpec, mergeValSpec, firstSome]
        · obtain ⟨bv, rfl⟩ := hb2 _ hgb
          rcases hgl : dictGet local_ key with _ | vl
          · simp [hgi, hge, hgu, hgb, hgl, mergeLookupSpec, mergeValSpec, firstSome]
          · obtain ⟨bv2, rfl⟩ := hl _ hgl
            simp [hgi, hge, hgu, hgb, hgl, mergeLookupSpec, mergeValSpec, firstSome]
    · obtain ⟨bv, hbv⟩ := Option.isSome_iff_exists.mp (henv e hge)
      simp [hgi, hge, hbv, firstSome]
  · obtain ⟨bv, rfl⟩ := hi _ hgi
    simp [hgi, firstSome]

/-- Claim C3: settings resolution obeys the precedence defaults < user file
< project-base file < project-local file < environment < constructor
overrides — for every field the resolved value is the highest-precedence
source supplying it — and in particular a project file setting sandbox_name
to .x together with CLOD_SANDBOX_NAME set to .y resolves to .y. -/
theorem settings_precedence :
    (∀ (init : Dict) (h : Host) (user base local_ : Dict),
      (base.map Prod.fst).Nodup → (local_.map Prod.fst).Nodup →
      (∀ key, key ∈ (["sandbox_name", "term", "lang", "shell"] : List String) →
        suppliesStr init key ∧ suppliesStr user key ∧ suppliesStr base key ∧
          suppliesStr local_ key) →
      (suppliesBool init "enable_network" ∧ suppliesBool user "enable_network" ∧
        suppliesBool base "enable_network" ∧ suppliesBool local_ "enable_network") →
      (∀ s, h.getenv "CLOD_ENABLE_NETWORK" = some s →
        (parseEnvBool s).isSome = true) →
      mkClodSettings init h (deep_merge (deep_merge user base) local_) =
        Except.ok
          { sandbox_name :=
              strResolved init h user base local_ "sandbox_name" ".claude-sandbox",
            enable_network :=
              boolResolved init h user base local_ "enable_network" true,
            term := strResolved init h user base local_ "term" "xterm-256color",
            lang := strResolved init h user base local_ "lang" "en_US.UTF-8",
            shell := strResolved init h user base local_ "shell" "/bin/bash" })
    ∧ clodSettingsNew hostEnvY fsSandboxX "/proj" none [] =
        Except.ok { sandbox_name := ".y", enable_network := true,
                    term := "xterm-256color", lang := "en_US.UTF-8",
                    shell := "/bin/bash" } := by
  constructor
  · intro init h user base local_ hbase hlocal hstr hbool henv
    have k1 := hstr "sandbox_name" (by simp)
    have k2 := hstr "term" (by simp)
    have k3 := hstr "lang" (by simp)
    have k4 := hstr "shell" (by simp)
    simp only [mkClodSettings]
    rw [resolveStrField_precedence init h user base local_ "sandbox_name"
          ".claude-sandbox" hbase hlocal k1.1 k1.2.1 k1.2.2.1 k1.2.2.2,
        resolveBoolField_precedence init h user base local_ "enable_network"
          true hbase hlocal hbool.1 hbool.2.1 hbool.2.2.1 hbool.2.2.2 henv,
        resolveStrField_precedence init h user base local_ "term"
          "xterm-256color" hbase hlocal k2.1 k2.2.1 k2.2.2.1 k2.2.2.2,
        resolveStrField_precedence init h user base local_ "lang"
          "en_US.UTF-8" hbase hlocal k3.1 k3.2.1 k3.2.2.1 k3.2.2.2,
        resolveStrField_precedence init h user base local_ "shell"
          "/bin/bash" hbase hlocal k4.1 k4.2.1 k4.2.2.1 k4.2.2.2]
    rfl
  · have h1 : discover_user_config hostEnvY fsSandboxX = none := rfl
    have h2 : discover_project_config fsSandboxX "/proj"
        = Except.ok (some "/proj/clod.toml", none) := rfl
    have hf : fsSandboxX.isFile "/proj/clod.toml" = true := rfl
    have h3 : deep_update [] (fsSandboxX.content "/proj/clod.toml")
        = [("sandbox_name", TomlVal.vstr ".x")] := by
      show deep_update [] [("sandbox_name", TomlVal.vstr ".x")] = _
      simp [deep_update, dictGet, dictSet]
    have h4 : source_load_configs hostEnvY fsSandboxX "/proj" none
        = Except.ok [("sandbox_name", TomlVal.vstr ".x")] := by
      simp only [source_load_configs, h1, h2, hf, h3, except_bind_ok,
                 except_pure, source_load_toml, if_true]
    simp only [clodSettingsNew, h4, except_bind_ok]
    rfl

/-- Witness for C3: at empty sources over the env-override host the general
precedence statement instantiates and every hypothesis holds. -/
theorem settings_precedence_witness :
    mkClodSettings [] hostEnvY (deep_merge (deep_merge [] []) []) =
      Except.ok
        { sandbox_name :=
            strResolved [] hostEnvY [] [] [] "sandbox_name" ".claude-sandbox",
          enable_network := boolResolved [] hostEnvY [] [] [] "enable_network" true,
          term := strResolved [] hostEnvY [] [] [] "term" "xterm-256color",
          lang := strResolved [] hostEnvY [] [] [] "lang" "en_US.UTF-8",
          shell := strResolved [] hostEnvY [] [] [] "shell" "/bin/bash" } :=
  settings_precedence.1 [] hostEnvY [] [] [] (by simp) (by simp)
    (fun key hk =>
      ⟨fun v hv => by simp [dictGet] at hv, fun v hv => by simp [dictGet] at hv,
       fun v hv => by simp [dictGet] at hv, fun v hv => by simp [dictGet] at hv⟩)
    ⟨fun v hv => by simp [dictGet] at hv, fun v hv => by simp [dictGet] at hv,
     fun v hv => by simp [dictGet] at hv, fun v hv => by simp [dictGet] at hv⟩
    (fun s hs => by simp [hostEnvY] at hs)

/-- Witness for C8: a concrete network-disabled settings record yields the
six-flag namespace segment. -/
theorem network_unshare_flags_witness :
    (jailBuilder hostBare "/p" "/p/.s"
        { sandbox_name := ".s", enable_network := false, term := "t",
          lang := "l", shell := "sh" }).ns_args =
      ["--unshare-user", "--unshare-pid", "--unshare-uts", "--unshare-ipc",
       "--unshare-cgroup", "--unshare-net"] :=
  network_unshare_flags.1 hostBare "/p" "/p/.s"
    { sandbox_name := ".s", enable_network := false, term := "t",
      lang := "l", shell := "sh" } rfl

/-! ### Equivalence of the two configuration loaders -/

theorem deep_update_eq_merge : (b a : Dict) → deep_update a b = deep_merge a b
  | [], a => by rw [deep_update, deep_merge]
  | (k, v) :: rest, a => by
    rw [deep_merge_cons]
    cases v with
    | vtable ot =>
      rcases hga : dictGet a k with _ | gv
      · simp [deep_update, hga, mergeValSpec]
        exact deep_update_eq_merge rest _
      · cases gv with
        | vtable bt =>
          simp [deep_update, hga, mergeValSpec]
          rw [deep_update_eq_merge ot bt]
          exact deep_update_eq_merge rest _
        | vstr s =>
          simp [deep_update, hga, mergeValSpec]
          exact deep_update_eq_merge rest _
        | vint n =>
          simp [deep_update, hga, mergeValSpec]
          exact deep_update_eq_merge rest _
        | vbool bo =>
          simp [deep_update, hga, mergeValSpec]
          exact deep_update_eq_merge rest _
        | vlist l =>
          simp [deep_update, hga, mergeValSpec]
          exact deep_update_eq_merge rest _
    | vstr s =>
      rcases hga : dictGet a k with _ | gv
      · simp [deep_update, hga, mergeValSpec]
        exact deep_update_eq_merge rest _
      · cases gv <;> simp [deep_update, hga, mergeValSpec] <;>
          exact deep_update_eq_merge rest _
    | vint n =>
      rcases hga : dictGet a k with _ | gv
      · simp [deep_update, hga, mergeValSpec]
        exact deep_update_eq_merge rest _
      · cases gv <;> simp [deep_update, hga, mergeValSpec] <;>
          exact deep_update_eq_merge rest _
    | vbool bo =>
      rcases hga : dictGet a k with _ | gv
      · simp [deep_update, hga, mergeValSpec]
        exact deep_update_eq_merge rest _
      · cases gv <;> simp [deep_update, hga, mergeValSpec] <;>
          exact deep_update_eq_merge rest _
    | vlist l =>
      rcases hga : dictGet a k with _ | gv
      · simp [deep_update, hga, mergeValSpec]
        exact deep_update_eq_merge rest _
      · cases gv <;> simp [deep_update, hga, mergeValSpec] <;>
          exact deep_update_eq_merge rest _
termination_by b _ => sizeOf b

theorem discover_user_config_isFile (h : Host) (fs : ConfigFS) (u : String)
    (hu : discover_user_config h fs = some u) : fs.isFile u = true := by
  by_cases hf : fs.isFile (get_config_home h ++ "/config.toml") = true
  · rw [discover_user_config, if_pos hf] at hu
    cases hu
    exact hf
  · rw [discover_user_config, if_neg hf] at hu
    cases hu

theorem discover_project_config_isFile (fs : ConfigFS) (pd : String)
    (bo lo : Option String)
    (hd : discover_project_config fs pd = Except.ok (bo, lo)) :
    (∀ bp, bo = some bp → fs.isFile bp = true) ∧
    (∀ lp, lo = some lp → fs.isFile lp = true) := by
  rcases hb1 : fs.isFile (pd ++ "/clod.toml") <;>
    rcases hb2 : fs.isFile (pd ++ "/.clod/config.toml") <;>
    rcases hl1 : fs.isFile (pd ++ "/clod.local.toml") <;>
    rcases hl2 : fs.isFile (pd ++ "/.clod/config.local.toml") <;>
    simp only [discover_project_config, hb1, hb2, Bool.and_self, Bool.and_true,
               Bool.and_false, Bool.true_and, Bool.false_and, if_true, if_false,
               hl1, hl2, except_pure, except_bind_ok, except_bind_error] at hd <;>
    simp only [Except.ok.injEq, Prod.mk.injEq, reduceCtorEq] at hd <;>
    try obtain ⟨hbo, hlo⟩ := hd
  all_goals constructor <;> intro p hp <;> simp_all

/-- Claim C10: the two configuration-loading implementations agree — for
every filesystem state, host environment, project directory and explicit
argument, the pydantic source's merged dict equals the first component of
load_all_configs, and both produce identical errors. -/
theorem loader_source_equivalent :
    ∀ (h : Host) (fs : ConfigFS) (pd : String) (ec : Option String),
      source_load_configs h fs pd ec = (load_all_configs h fs pd ec).map Prod.fst := by
  intro h fs pd ec
  cases ec with
  | some f =>
    by_cases hf : fs.isFile f = true
    · simp [source_load_configs, load_all_configs, source_load_toml,
            load_toml_file, hf, except_bind_ok, except_pure, except_map_ok]
    · simp [source_load_configs, load_all_configs, source_load_toml,
            load_toml_file, hf, except_bind_error, except_map_error]
  | none =>
    rcases hd : discover_project_config fs pd with e | pr
    · rcases hu : discover_user_config h fs with _ | u
      · simp [source_load_configs, load_all_configs, hu, hd,
              except_bind_ok, except_bind_error, except_pure, except_map_error]
      · have hfu : fs.isFile u = true := discover_user_config_isFile h fs u hu
        simp [source_load_configs, load_all_configs, hu, hd, hfu,
              load_toml_file, source_load_toml, except_bind_ok,
              except_bind_error, except_pure, except_map_error]
    · obtain ⟨bo, lo⟩ := pr
      have hext := discover_project_config_isFile fs pd bo lo hd
      rcases hu : discover_user_config h fs with _ | u
      · rcases bo with _ | bp <;> rcases lo with _ | lp
        · simp [source_load_configs, load_all_configs, hu, hd,
                except_bind_ok, except_pure, except_map_ok]
        · have hfl : fs.isFile lp = true := hext.2 lp rfl
          simp [source_load_configs, load_all_configs, hu, hd, hfl,
                load_toml_file, source_load_toml, except_bind_ok, except_pure,
                deep_update_eq_merge, except_map_ok]
        · have hfb : fs.isFile bp = true := hext.1 bp rfl
          simp [source_load_configs, load_all_configs, hu, hd, hfb,
                load_toml_file, source_load_toml, except_bind_ok, except_pure,
                deep_update_eq_merge, except_map_ok]
        · have hfb : fs.isFile bp = true := hext.1 bp rfl
          have hfl : fs.isFile lp = true := hext.2 lp rfl
          simp [source_load_configs, load_all_configs, hu, hd, hfb, hfl,
                load_toml_file, source_load_toml, except_bind_ok, except_pure,
                deep_update_eq_merge, except_map_ok]
      · have hfu : fs.isFile u = true := discover_user_config_isFile h fs u hu
        rcases bo with _ | bp <;> rcases lo with _ | lp
        · simp [source_load_configs, load_all_configs, hu, hd, hfu,
                load_toml_file, source_load_toml, except_bind_ok, except_pure,
                deep_update_eq_merge, except_map_ok]
        · have hfl : fs.isFile lp = true := hext.2 lp rfl
          simp [source_load_configs, load_all_configs, hu, hd, hfu, hfl,
                load_toml_file, source_load_toml, except_bind_ok, except_pure,
                deep_update_eq_merge, except_map_ok]
        · have hfb : fs.isFile bp = true := hext.1 bp rfl
          simp [source_load_configs, load_all_configs, hu, hd, hfu, hfb,
                load_toml_file, source_load_toml, except_bind_ok, except_pure,
                deep_update_eq_merge, except_map_ok]
        · have hfb : fs.isFile bp = true := hext.1 bp rfl
          have hfl : fs.isFile lp = true := hext.2 lp rfl
          simp [source_load_configs, load_all_configs, hu, hd, hfu, hfb, hfl,
                load_toml_file, source_load_toml, except_bind_ok, except_pure,
                deep_update_eq_merge, except_map_ok]

end Clod
